import Mathlib

set_option maxHeartbeats 1000000

/-! Shallow embedding of `src/restore.cpp`: an FFmpeg-based video-to-JPEG
frame extractor.  Interactions with the codec library and the filesystem are
modelled by boolean outcome environments; the control flow of the source is
mirrored definition by definition. -/

/-- Pixel formats as seen by the decoder context.  The encoder-accepted
formats in the source are `AV_PIX_FMT_YUV420P` and `AV_PIX_FMT_YUVJ420P`;
every other format is represented by `other code`. -/
inductive PixFmt
  | yuv420p
  | yuvj420p
  | other (code : Nat)
deriving DecidableEq, Repr

/-- The condition under which the source constructs a `SwsContext`
(`codec_ctx->pix_fmt != AV_PIX_FMT_YUV420P && codec_ctx->pix_fmt != AV_PIX_FMT_YUVJ420P`). -/
def needsConversion : PixFmt → Bool
  | .yuv420p => false
  | .yuvj420p => false
  | .other _ => true

/-- A decoded frame, identified by its content. -/
structure Frame where
  id : Nat
deriving DecidableEq, Repr

/-- What the JPEG encoder receives for one frame: either the decoder's
original frame (zero-copy path) or a freshly converted copy. -/
inductive OutFrame
  | original (f : Frame)
  | converted (f : Frame)
deriving DecidableEq, Repr

/-- Outcomes of the three fallible steps of the conversion branch in the
main drain loop: `av_frame_alloc`, `av_frame_get_buffer`, `sws_scale`. -/
structure ConvEnv where
  allocOk : Bool
  getBufferOk : Bool
  scaleOk : Bool
deriving DecidableEq, Repr

/-- Outcomes of the fallible steps inside `decode_and_save_frame`:
`avcodec_find_encoder`, `avcodec_alloc_context3`, `avcodec_open2`,
`av_packet_alloc`, `avcodec_send_frame`, `avcodec_receive_packet`,
`fopen`, plus the packet size and the byte count `fwrite` reports. -/
structure EncodeEnv where
  findEncoderOk : Bool
  allocCtxOk : Bool
  openEncoderOk : Bool
  allocPacketOk : Bool
  sendFrameOk : Bool
  receivePacketOk : Bool
  fopenOk : Bool
  packetSize : Nat
  bytesWritten : Nat
deriving DecidableEq, Repr

/-- Observable outcome of one `decode_and_save_frame` call: the returned
boolean, whether the destination file was opened for writing, and whether
the short-write warning was printed. -/
structure SaveResult where
  ok : Bool
  fileOpened : Bool
  shortWrite : Bool
deriving DecidableEq, Repr

/-- Embedding of `decode_and_save_frame` (src/restore.cpp lines 22-101).
Every early-return failure path returns `false` without touching the
output file; after a successful `avcodec_receive_packet` the file is
opened, the bytes are written, and a byte count differing from the packet
size is logged as a warning while the function still returns `true`. -/
def decode_and_save_frame (env : EncodeEnv) : SaveResult :=
  if !env.findEncoderOk then ⟨false, false, false⟩
  else if !env.allocCtxOk then ⟨false, false, false⟩
  else if !env.openEncoderOk then ⟨false, false, false⟩
  else if !env.allocPacketOk then ⟨false, false, false⟩
  else if !env.sendFrameOk then ⟨false, false, false⟩
  else if !env.receivePacketOk then ⟨false, false, false⟩
  else if !env.fopenOk then ⟨false, false, false⟩
  else ⟨true, true, env.bytesWritten != env.packetSize⟩

/-- One result of `avcodec_receive_frame` in the main-phase drain loop:
either a frame (with the outcomes of its conversion and encode steps) or a
hard decode error (a negative return other than EAGAIN/EOF).  The end of
the list stands for EAGAIN/EOF ending the drain. -/
inductive DrainItem
  | frame (f : Frame) (conv : ConvEnv) (enc : EncodeEnv)
  | hardError
deriving DecidableEq, Repr

/-- One packet read by `av_read_frame`: a packet of a non-video stream, a
video packet whose `avcodec_send_packet` fails, or a video packet whose
submission succeeds and whose drain produces the listed items. -/
inductive Packet
  | otherStream
  | sendFail
  | video (items : List DrainItem)
deriving DecidableEq, Repr

/-- Mutable state of the decode loop of `decode_video_to_images`:
`frame_count` is the label cursor, `decoded_frames` counts successful
saves, `success` is the job flag, `written` lists the output paths whose
files were opened for writing (in order), and `encoded` lists the frames
handed to the JPEG encoder (in order). -/
structure LoopState where
  frame_count : Nat
  decoded_frames : Nat
  success : Bool
  written : List String
  encoded : List OutFrame
deriving DecidableEq, Repr

/-- Loop state at entry of the decode loop. -/
def initState : LoopState := ⟨0, 0, true, [], []⟩

/-- Output path construction: `output_dir + "/" + frame_indices[frame_count] + ".jpg"`. -/
def pathOf (dir lb : String) : String := dir ++ "/" ++ lb ++ ".jpg"

/-- Body of the main-phase drain loop for one received frame
(src/restore.cpp lines 277-336).  Returns the updated state and whether
draining continues.  If the label cursor has reached the label count the
frame is dropped and draining stops.  Otherwise, when a conversion is
needed and any conversion step fails, `success` is cleared and draining
stops WITHOUT advancing the cursor.  Otherwise the (possibly converted)
frame is encoded and saved; an encode failure clears `success`, a success
bumps `decoded_frames`; either way the cursor advances by one. -/
def stepFrame (labels : List String) (dir : String) (nc : Bool) (f : Frame)
    (conv : ConvEnv) (enc : EncodeEnv) (s : LoopState) : LoopState × Bool :=
  if labels.length ≤ s.frame_count then
    (s, false)
  else if nc && !(conv.allocOk && conv.getBufferOk && conv.scaleOk) then
    ({ s with success := false }, false)
  else
    let outFrame := if nc then OutFrame.converted f else OutFrame.original f
    let r := decode_and_save_frame enc
    ({ frame_count := s.frame_count + 1,
       decoded_frames := s.decoded_frames + (if r.ok then 1 else 0),
       success := s.success && r.ok,
       written := s.written ++ (if r.fileOpened then [pathOf dir (labels.getD s.frame_count "")] else []),
       encoded := s.encoded ++ [outFrame] }, true)

/-- The main-phase drain loop (`while (true) { avcodec_receive_frame ... }`,
src/restore.cpp lines 267-337).  A hard error clears `success` and stops
the drain; a frame is handled by `stepFrame`. -/
def drainMain (labels : List String) (dir : String) (nc : Bool) :
    List DrainItem → LoopState → LoopState
  | [], s => s
  | DrainItem.hardError :: _, s => { s with success := false }
  | DrainItem.frame f conv enc :: rest, s =>
    let r := stepFrame labels dir nc f conv enc s
    if r.2 then drainMain labels dir nc rest r.1 else r.1

/-- Handling of one packet of the outer read loop
(src/restore.cpp lines 245-341). -/
def processPacket (labels : List String) (dir : String) (nc : Bool)
    (s : LoopState) : Packet → LoopState
  | .otherStream => s
  | .sendFail => s
  | .video items => drainMain labels dir nc items s

/-- The whole outer read loop over all packets. -/
def runPackets (labels : List String) (dir : String) (nc : Bool)
    (packets : List Packet) (s : LoopState) : LoopState :=
  packets.foldl (fun s p => processPacket labels dir nc s p) s

/-- Body of the flush loop for one frame drained after the end-of-stream
signal (src/restore.cpp lines 345-357).  If labels remain, the frame is
saved DIRECTLY (no conversion step exists on this path) under the next
label and the cursor advances; otherwise the frame is skipped and draining
continues. -/
def flushStep (labels : List String) (dir : String) (f : Frame)
    (enc : EncodeEnv) (s : LoopState) : LoopState :=
  if s.frame_count < labels.length then
    let r := decode_and_save_frame enc
    { frame_count := s.frame_count + 1,
      decoded_frames := s.decoded_frames + (if r.ok then 1 else 0),
      success := s.success && r.ok,
      written := s.written ++ (if r.fileOpened then [pathOf dir (labels.getD s.frame_count "")] else []),
      encoded := s.encoded ++ [OutFrame.original f] }
  else s

/-- The flush loop (`avcodec_send_packet(ctx, nullptr)` then
`while (avcodec_receive_frame(...) >= 0)`). -/
def drainFlush (labels : List String) (dir : String)
    (items : List (Frame × EncodeEnv)) (s : LoopState) : LoopState :=
  items.foldl (fun s fe => flushStep labels dir fe.1 fe.2 s) s

/-- Reading the label file (src/restore.cpp lines 126-133): every
`getline` result is kept iff it is non-empty, in file order. -/
def readLabels : List String → List String
  | [] => []
  | line :: rest => if !line.isEmpty then line :: readLabels rest else readLabels rest

/-- All inputs of one `decode_video_to_images` run: the outcomes of the
setup steps (directory creation, index file checks, container open, stream
probing, decoder setup, frame/packet allocation, `sws_getContext`), the
stream's pixel format, the lines of the index file, the packet sequence
and the frames released by the flush. -/
structure PipelineInput where
  output_dir : String
  outputDirOk : Bool
  txtExists : Bool
  txtOpenOk : Bool
  txtLines : List String
  videoExists : Bool
  openInputOk : Bool
  findStreamInfoOk : Bool
  hasVideoStream : Bool
  allocCtxOk : Bool
  paramsToCtxOk : Bool
  openDecoderOk : Bool
  allocFramePacketOk : Bool
  pixFmt : PixFmt
  swsCreateOk : Bool
  packets : List Packet
  flushFrames : List (Frame × EncodeEnv)
deriving DecidableEq, Repr

/-- Embedding of `decode_video_to_images` (src/restore.cpp lines 104-367).
Returns the boolean the function returns together with the final loop
state (the observable trace).  Setup failures return `false` before any
frame is processed; otherwise the main read loop runs over all packets,
then the flush loop, and the accumulated `success` flag is returned. -/
def decode_video_to_images (inp : PipelineInput) : Bool × LoopState :=
  if !inp.outputDirOk then (false, initState)
  else if !inp.txtExists then (false, initState)
  else if !inp.txtOpenOk then (false, initState)
  else
    let labels := readLabels inp.txtLines
    if !inp.videoExists then (false, initState)
    else if !inp.openInputOk then (false, initState)
    else if !inp.findStreamInfoOk then (false, initState)
    else if !inp.hasVideoStream then (false, initState)
    else if !inp.allocCtxOk then (false, initState)
    else if !inp.paramsToCtxOk then (false, initState)
    else if !inp.openDecoderOk then (false, initState)
    else if !inp.allocFramePacketOk then (false, initState)
    else
      let nc := needsConversion inp.pixFmt
      if nc && !inp.swsCreateOk then (false, initState)
      else
        let s1 := runPackets labels inp.output_dir nc inp.packets initState
        let s2 := drainFlush labels inp.output_dir inp.flushFrames s1
        (s2.success, s2)

/-- Number of frames drained from one packet. -/
def packetFrames : Packet → Nat
  | .video items => items.length
  | _ => 0

/-- Main-phase frame count of a packet sequence. -/
def mainFrames (packets : List Packet) : Nat := (packets.map packetFrames).sum

/-- Total number of decodable frames of a run: main phase plus flush. -/
def totalFrames (inp : PipelineInput) : Nat :=
  mainFrames inp.packets + inp.flushFrames.length

/-- One job of the batch loop in `main` (src/restore.cpp lines 392-422):
the three precondition checks and the pipeline input used if invoked. -/
structure JobSpec where
  videoExists : Bool
  txtExists : Bool
  outputDirOk : Bool
  pipeline : PipelineInput
deriving DecidableEq, Repr

/-- One iteration of the batch loop: returns (job outcome, whether the
pipeline was invoked).  A missing video file, missing index file or
uncreatable output directory fails the job without invoking the pipeline. -/
def runJob (j : JobSpec) : Bool × Bool :=
  if !j.videoExists then (false, false)
  else if !j.txtExists then (false, false)
  else if !j.outputDirOk then (false, false)
  else ((decode_video_to_images j.pipeline).1, true)

/-- The orchestrator's aggregate flag `all_success`: starts `true` and is
cleared by every failing job, while iteration always continues. -/
def mainAllSuccess (jobs : List JobSpec) : Bool :=
  jobs.foldl (fun acc j => acc && (runJob j).1) true

/-! Sample environments used by concrete witnesses and counterexamples. -/

/-- An encode environment in which every step succeeds and the full packet
is written. -/
def encOkEnv : EncodeEnv := ⟨true, true, true, true, true, true, true, 10, 10⟩

/-- An encode environment in which everything succeeds but `fwrite`
reports fewer bytes than the packet size (a short write). -/
def encShortEnv : EncodeEnv := ⟨true, true, true, true, true, true, true, 10, 4⟩

/-- An encode environment in which `avcodec_receive_packet` fails. -/
def encFailEnv : EncodeEnv := ⟨true, true, true, true, true, false, true, 10, 10⟩

/-- A conversion environment in which every step succeeds. -/
def convOkEnv : ConvEnv := ⟨true, true, true⟩

/-- A conversion environment in which `av_frame_alloc` fails. -/
def convBadEnv : ConvEnv := ⟨false, true, true⟩

/-- A pipeline input whose stream format needs conversion and whose only
frame arrives during the flush phase. -/
def c2Input : PipelineInput :=
  ⟨"out", true, true, true, ["a"], true, true, true, true, true, true, true, true,
   PixFmt.other 23, true, [], [(⟨7⟩, encOkEnv)]⟩

/-- A drained frame whose conversion (when needed) and encode steps all
succeed; a hard error is never good. -/
def goodItem (nc : Bool) : DrainItem → Bool
  | .frame _ conv enc =>
    (!nc || (conv.allocOk && conv.getBufferOk && conv.scaleOk)) && (decode_and_save_frame enc).ok
  | .hardError => false

/-- A packet all of whose drained items are good. -/
def goodPacket (nc : Bool) : Packet → Bool
  | .video items => items.all (goodItem nc)
  | _ => true

/-- A run in which every setup step and every per-frame
normalize-and-encode step succeeds. -/
def GoodInput (inp : PipelineInput) : Prop :=
  inp.outputDirOk = true ∧ inp.txtExists = true ∧ inp.txtOpenOk = true ∧
  inp.videoExists = true ∧ inp.openInputOk = true ∧ inp.findStreamInfoOk = true ∧
  inp.hasVideoStream = true ∧ inp.allocCtxOk = true ∧ inp.paramsToCtxOk = true ∧
  inp.openDecoderOk = true ∧ inp.allocFramePacketOk = true ∧
  (needsConversion inp.pixFmt && !inp.swsCreateOk) = false ∧
  inp.packets.all (goodPacket (needsConversion inp.pixFmt)) = true ∧
  inp.flushFrames.all (fun fe => (decode_and_save_frame fe.2).ok) = true

/-- A run with 3 decodable frames (one in the main phase, two in the
flush) and 2 labels. -/
def c4Input : PipelineInput :=
  ⟨"out", true, true, true, ["a", "b"], true, true, true, true, true, true, true, true,
   PixFmt.yuv420p, true,
   [Packet.video [DrainItem.frame ⟨1⟩ convOkEnv encOkEnv]],
   [(⟨2⟩, encOkEnv), (⟨3⟩, encOkEnv)]⟩

/-- No-hard-error check on a drain item. -/
def itemNoHard : DrainItem → Bool
  | .hardError => false
  | .frame _ _ _ => true

/-- No-hard-error check on a packet. -/
def packetNoHard : Packet → Bool
  | .video items => items.all itemNoHard
  | _ => true

/-- A zero-label run whose frames would all fail to convert or encode. -/
def c6Input : PipelineInput :=
  ⟨"out", true, true, true, ["", ""], true, true, true, true, true, true, true, true,
   PixFmt.yuv420p, true,
   [Packet.video [DrainItem.frame ⟨1⟩ convBadEnv encFailEnv]], [(⟨2⟩, encFailEnv)]⟩

/-! Helper lemmas about the save and drain steps. -/

/-- `decode_and_save_frame` returns `true` only on the branch that has
already opened the output file. -/
lemma save_ok_fileOpened (env : EncodeEnv)
    (h : (decode_and_save_frame env).ok = true) :
    (decode_and_save_frame env).fileOpened = true := by
  unfold decode_and_save_frame at h ⊢
  split_ifs at h ⊢ <;> simp_all

section StepLemmas

variable (labels : List String) (dir : String) (nc : Bool) (f : Frame)
variable (conv : ConvEnv) (enc : EncodeEnv) (s : LoopState)

/-- Label exhaustion: the frame is dropped and the drain stops. -/
lemma stepFrame_exhausted (h : labels.length ≤ s.frame_count) :
    stepFrame labels dir nc f conv enc s = (s, false) := by
  unfold stepFrame
  rw [if_pos h]

/-- Conversion failure: `success` is cleared, the drain stops, and the
label cursor does not advance. -/
lemma stepFrame_convFail (h1 : ¬ labels.length ≤ s.frame_count)
    (h2 : (nc && !(conv.allocOk && conv.getBufferOk && conv.scaleOk)) = true) :
    stepFrame labels dir nc f conv enc s = ({ s with success := false }, false) := by
  unfold stepFrame
  rw [if_neg h1, if_pos h2]

/-- Encode path: the frame reaches the encoder and the cursor advances by
one whatever `decode_and_save_frame` returns. -/
lemma stepFrame_encode (h1 : ¬ labels.length ≤ s.frame_count)
    (h2 : (nc && !(conv.allocOk && conv.getBufferOk && conv.scaleOk)) = false) :
    stepFrame labels dir nc f conv enc s =
      ({ frame_count := s.frame_count + 1,
         decoded_frames := s.decoded_frames +
           (if (decode_and_save_frame enc).ok then 1 else 0),
         success := s.success && (decode_and_save_frame enc).ok,
         written := s.written ++
           (if (decode_and_save_frame enc).fileOpened then
             [pathOf dir (labels.getD s.frame_count "")] else []),
         encoded := s.encoded ++
           [if nc then OutFrame.converted f else OutFrame.original f] }, true) := by
  unfold stepFrame
  rw [if_neg h1, if_neg (by simp only [h2]; decide)]

end StepLemmas

/-- C1 counterexample: with one available label, a drained frame whose
conversion step fails leaves the label cursor at 0 instead of advancing it
to 1, refuting "the label cursor advances by exactly one whether the
frame's normalize-and-encode step succeeds or fails". -/
theorem c1_counterexample :
    initState.frame_count < (["a"] : List String).length ∧
    (drainMain ["a"] "out" true [DrainItem.frame ⟨0⟩ convBadEnv encOkEnv] initState).frame_count
      = initState.frame_count ∧
    (drainMain ["a"] "out" true [DrainItem.frame ⟨0⟩ convBadEnv encOkEnv] initState).success
      = false := by
  decide

/-- C1 (amended): for a drained frame paired with an available label, the
label cursor advances by exactly one whenever the frame reaches the
encode step — i.e. when no conversion is needed or every conversion step
succeeds — regardless of whether the encode/save step succeeds; a
conversion failure, however, stops the drain without advancing the
cursor. -/
theorem c1_label_cursor (labels : List String) (dir : String) (nc : Bool)
    (f : Frame) (conv : ConvEnv) (enc : EncodeEnv) (s : LoopState)
    (h : s.frame_count < labels.length) :
    ((nc && !(conv.allocOk && conv.getBufferOk && conv.scaleOk)) = false →
      (stepFrame labels dir nc f conv enc s).1.frame_count = s.frame_count + 1) ∧
    ((nc && !(conv.allocOk && conv.getBufferOk && conv.scaleOk)) = true →
      (stepFrame labels dir nc f conv enc s).1.frame_count = s.frame_count) := by
  constructor
  · intro h2
    rw [stepFrame_encode labels dir nc f conv enc s (by omega) h2]
  · intro h2
    rw [stepFrame_convFail labels dir nc f conv enc s (by omega) h2]

/-- C1 witness: at one concrete frame with an available label and a
failing encoder, the cursor still advances by one. -/
theorem c1_label_cursor_witness :
    initState.frame_count < (["a"] : List String).length ∧
    (stepFrame ["a"] "out" false ⟨0⟩ convOkEnv encFailEnv initState).1.frame_count
      = initState.frame_count + 1 :=
  ⟨by decide,
   (c1_label_cursor ["a"] "out" false ⟨0⟩ convOkEnv encFailEnv initState (by decide)).1
     (by decide)⟩

/-- C2 counterexample: in a run whose stream format is not
encoder-accepted, the flush-phase frame is handed to the encoder as the
ORIGINAL frame (bypassing the normalizer), while the identical frame in
the main phase would be handed over converted — refuting "processed
exactly as a main-phase frame". -/
theorem c2_counterexample :
    needsConversion c2Input.pixFmt = true ∧
    (decode_video_to_images c2Input).2.encoded = [OutFrame.original ⟨7⟩] ∧
    (drainMain ["a"] "out" true [DrainItem.frame ⟨7⟩ convOkEnv encOkEnv] initState).encoded
      = [OutFrame.converted ⟨7⟩] := by
  decide

/-- C2 (amended): every flush-phase frame follows the same label-cursor
discipline as the main phase — it consumes the next unused label when one
remains and is discarded (state unchanged) when labels are exhausted —
but, unlike a main-phase frame, it is always passed to the encoder
unconverted, bypassing the pixel-format normalizer. -/
theorem c2_flush_cursor (labels : List String) (dir : String)
    (f : Frame) (enc : EncodeEnv) (s : LoopState) :
    (s.frame_count < labels.length →
      (flushStep labels dir f enc s).frame_count = s.frame_count + 1 ∧
      (flushStep labels dir f enc s).encoded = s.encoded ++ [OutFrame.original f]) ∧
    (labels.length ≤ s.frame_count → flushStep labels dir f enc s = s) := by
  constructor
  · intro h
    unfold flushStep
    rw [if_pos h]
    exact ⟨rfl, rfl⟩
  · intro h
    unfold flushStep
    rw [if_neg (by omega)]

/-- C2 witness: one concrete flush frame with a label left consumes the
label slot and is encoded as the original frame. -/
theorem c2_flush_cursor_witness :
    (flushStep ["a"] "out" ⟨7⟩ encOkEnv initState).frame_count = initState.frame_count + 1 ∧
    (flushStep ["a"] "out" ⟨7⟩ encOkEnv initState).encoded
      = initState.encoded ++ [OutFrame.original ⟨7⟩] :=
  (c2_flush_cursor ["a"] "out" ⟨7⟩ encOkEnv initState).1 (by decide)

/-- C3 counterexample: a short write (4 of 10 bytes) prints the warning
but `decode_and_save_frame` still returns `true`, so the job-level
`success` flag stays `true` — refuting "recorded in the job-level success
flag". -/
theorem c3_counterexample :
    (decode_and_save_frame encShortEnv).shortWrite = true ∧
    (decode_and_save_frame encShortEnv).ok = true ∧
    (drainMain ["a"] "out" false [DrainItem.frame ⟨0⟩ convOkEnv encShortEnv] initState).success
      = true := by
  decide

/-- C3 (amended): a short write is logged as a data-integrity warning and
does not abort the decode loop, but it is NOT recorded in the job-level
success flag: `decode_and_save_frame` still returns `true`, so the job's
`success` flag is unchanged and draining continues. -/
theorem c3_short_write (env : EncodeEnv)
    (h : env.findEncoderOk = true ∧ env.allocCtxOk = true ∧ env.openEncoderOk = true ∧
         env.allocPacketOk = true ∧ env.sendFrameOk = true ∧ env.receivePacketOk = true ∧
         env.fopenOk = true ∧ env.bytesWritten ≠ env.packetSize) :
    decode_and_save_frame env = ⟨true, true, true⟩ ∧
    ∀ (labels : List String) (dir : String) (f : Frame) (conv : ConvEnv) (s : LoopState),
      s.frame_count < labels.length →
      (stepFrame labels dir false f conv env s).1.success = s.success ∧
      (stepFrame labels dir false f conv env s).2 = true := by
  obtain ⟨h1, h2, h3, h4, h5, h6, h7, h8⟩ := h
  have hsave : decode_and_save_frame env = ⟨true, true, true⟩ := by
    unfold decode_and_save_frame
    simp [h1, h2, h3, h4, h5, h6, h7, h8]
  refine ⟨hsave, ?_⟩
  intro labels dir f conv s hlt
  rw [stepFrame_encode labels dir false f conv env s (by omega) (by simp)]
  rw [hsave]
  simp

/-- C3 witness: the concrete short-write environment returns `ok = true`
with the warning logged. -/
theorem c3_short_write_witness :
    decode_and_save_frame encShortEnv = ⟨true, true, true⟩ :=
  (c3_short_write encShortEnv (by decide)).1

/-- The label-reading loop is equivalent to filtering out empty lines. -/
lemma readLabels_eq_filter (lines : List String) :
    readLabels lines = lines.filter (fun l => !l.isEmpty) := by
  induction lines with
  | nil => rfl
  | cons a rest ih =>
    by_cases h : a.isEmpty <;> simp [readLabels, h, ih, List.filter_cons]

/-- C7: the frame label source returns exactly the non-empty lines of the
label resource, verbatim and in file order (a sublist of the input,
characterised as the empty-line filter); in particular the lines
"a", "", "b" yield exactly the labels "a" then "b". -/
theorem c7_label_lines :
    (∀ lines : List String, readLabels lines = lines.filter (fun l => !l.isEmpty)) ∧
    (∀ lines : List String, (readLabels lines).Sublist lines) ∧
    readLabels ["a", "", "b"] = ["a", "b"] := by
  refine ⟨readLabels_eq_filter, ?_, by decide⟩
  intro lines
  rw [readLabels_eq_filter]
  exact List.filter_sublist lines

/-- C8: when the stream's pixel format is one of the encoder-accepted
formats, no conversion happens: the frame handed to the encoder is the
original decoded frame, the conversion-step outcomes are irrelevant to the
result, and the whole pipeline run is unaffected by whether a conversion
context could have been built. -/
theorem c8_identity_when_accepted (p : PixFmt)
    (hp : p = PixFmt.yuv420p ∨ p = PixFmt.yuvj420p) :
    needsConversion p = false ∧
    (∀ (labels : List String) (dir : String) (f : Frame) (conv : ConvEnv)
      (enc : EncodeEnv) (s : LoopState),
      s.frame_count < labels.length →
      (stepFrame labels dir (needsConversion p) f conv enc s).1.encoded
        = s.encoded ++ [OutFrame.original f] ∧
      stepFrame labels dir (needsConversion p) f conv enc s
        = stepFrame labels dir (needsConversion p) f convOkEnv enc s) ∧
    (∀ (inp : PipelineInput) (b : Bool), inp.pixFmt = p →
      decode_video_to_images inp
        = decode_video_to_images { inp with swsCreateOk := b }) := by
  have hnc : needsConversion p = false := by
    rcases hp with h | h <;> simp [h, needsConversion]
  refine ⟨hnc, ?_, ?_⟩
  · intro labels dir f conv enc s hlt
    rw [hnc]
    rw [stepFrame_encode labels dir false f conv enc s (by omega) (by simp)]
    rw [stepFrame_encode labels dir false f convOkEnv enc s (by omega) (by simp)]
    exact ⟨by simp, rfl⟩
  · intro inp b hip
    unfold decode_video_to_images
    simp [hip, hnc]

/-- C8 witness: a concrete `yuv420p` frame is passed to the encoder
unchanged even though its conversion environment would fail. -/
theorem c8_identity_when_accepted_witness :
    needsConversion PixFmt.yuv420p = false ∧
    (stepFrame ["a"] "out" (needsConversion PixFmt.yuv420p) ⟨4⟩ convBadEnv encOkEnv
        initState).1.encoded
      = initState.encoded ++ [OutFrame.original ⟨4⟩] :=
  ⟨(c8_identity_when_accepted PixFmt.yuv420p (Or.inl rfl)).1,
   ((c8_identity_when_accepted PixFmt.yuv420p (Or.inl rfl)).2.1 ["a"] "out" ⟨4⟩ convBadEnv
     encOkEnv initState (by decide)).1⟩

/-- C9: the label-to-file assignment (the `written` trace) and the frame
routing (the `encoded` trace) are deterministic functions of the pipeline
input: two runs on identical inputs produce identical results. -/
theorem c9_deterministic (inp1 inp2 : PipelineInput) (h : inp1 = inp2) :
    (decode_video_to_images inp1).2.written = (decode_video_to_images inp2).2.written ∧
    (decode_video_to_images inp1).2.encoded = (decode_video_to_images inp2).2.encoded ∧
    decode_video_to_images inp1 = decode_video_to_images inp2 := by
  subst h
  exact ⟨rfl, rfl, rfl⟩

/-- C9 witness: re-running one concrete job gives the identical result. -/
theorem c9_deterministic_witness :
    (decode_video_to_images c2Input).2.written = (decode_video_to_images c2Input).2.written ∧
    (decode_video_to_images c2Input).2.encoded = (decode_video_to_images c2Input).2.encoded ∧
    decode_video_to_images c2Input = decode_video_to_images c2Input :=
  c9_deterministic c2Input c2Input rfl

/-- C10: if any encoder step before packet production fails
(`avcodec_find_encoder`, context allocation, `avcodec_open2`, packet
allocation, `avcodec_send_frame` or `avcodec_receive_packet`), the
destination file is never opened for writing and the call returns
`false`; conversely the file is only ever opened after all those steps
succeeded. -/
theorem c10_no_file_before_packet (env : EncodeEnv)
    (h : env.findEncoderOk = false ∨ env.allocCtxOk = false ∨ env.openEncoderOk = false ∨
         env.allocPacketOk = false ∨ env.sendFrameOk = false ∨ env.receivePacketOk = false) :
    (decode_and_save_frame env).fileOpened = false ∧
    (decode_and_save_frame env).ok = false ∧
    ∀ env2 : EncodeEnv, (decode_and_save_frame env2).fileOpened = true →
      env2.findEncoderOk = true ∧ env2.allocCtxOk = true ∧ env2.openEncoderOk = true ∧
      env2.allocPacketOk = true ∧ env2.sendFrameOk = true ∧ env2.receivePacketOk = true := by
  refine ⟨?_, ?_, ?_⟩
  · unfold decode_and_save_frame
    split_ifs <;> simp_all
  · unfold decode_and_save_frame
    split_ifs <;> simp_all
  · intro env2 h2
    unfold decode_and_save_frame at h2
    split_ifs at h2 <;> simp_all

/-- C10 witness: with a failing `avcodec_receive_packet` the file is not
opened and the call fails. -/
theorem c10_no_file_before_packet_witness :
    (decode_and_save_frame encFailEnv).fileOpened = false ∧
    (decode_and_save_frame encFailEnv).ok = false :=
  ⟨(c10_no_file_before_packet encFailEnv
      (Or.inr (Or.inr (Or.inr (Or.inr (Or.inr rfl)))))).1,
   (c10_no_file_before_packet encFailEnv
      (Or.inr (Or.inr (Or.inr (Or.inr (Or.inr rfl)))))).2.1⟩

/-- Boolean helper: a satisfied conversion guard negates the failure test. -/
lemma and_not_eq_false (a m : Bool) (h : (!a || m) = true) : (a && !m) = false := by
  cases a <;> cases m <;> simp_all

/-- `take` of a successor splits off the element read by `getD`. -/
lemma take_succ_getD : ∀ (l : List String) (n : Nat), n < l.length →
    l.take (n + 1) = l.take n ++ [l.getD n ""]
  | [], n, h => by simp at h
  | a :: l, 0, _ => by simp
  | a :: l, n + 1, h => by
    have ih := take_succ_getD l n (by simp at h; omega)
    simp [ih, List.getD_cons_succ, List.take_succ_cons]

/-- Main-drain invariant: over good items, starting from a clean state
whose written files are the first `frame_count` labels, the drain keeps
`success`, moves the cursor to `min (start + frames) labels` and keeps the
written files equal to the labels consumed so far. -/
lemma drainMain_good (labels : List String) (dir : String) (nc : Bool) :
    ∀ (items : List DrainItem) (s : LoopState),
      items.all (goodItem nc) = true →
      s.success = true →
      s.frame_count ≤ labels.length →
      s.written = (labels.take s.frame_count).map (pathOf dir) →
      (drainMain labels dir nc items s).success = true ∧
      (drainMain labels dir nc items s).frame_count
        = min (s.frame_count + items.length) labels.length ∧
      (drainMain labels dir nc items s).written
        = (labels.take (min (s.frame_count + items.length) labels.length)).map (pathOf dir) := by
  intro items
  induction items with
  | nil =>
    intro s _ hsucc hle hw
    simp only [drainMain, List.length_nil, Nat.add_zero]
    have hmin : min s.frame_count labels.length = s.frame_count := by omega
    rw [hmin]
    exact ⟨hsucc, rfl, hw⟩
  | cons it rest ih =>
    intro s hgood hsucc hle hw
    rw [List.all_cons, Bool.and_eq_true] at hgood
    cases it with
    | hardError => simp [goodItem] at hgood
    | frame f conv enc =>
      obtain ⟨hg, hrest⟩ := hgood
      simp only [goodItem, Bool.and_eq_true] at hg
      obtain ⟨hgc, hok⟩ := hg
      by_cases hx : labels.length ≤ s.frame_count
      · have hstep := stepFrame_exhausted labels dir nc f conv enc s hx
        simp only [drainMain, hstep, List.length_cons]
        have hmin : min (s.frame_count + (rest.length + 1)) labels.length = s.frame_count := by
          omega
        rw [hmin]
        simp only [Bool.false_eq_true, if_false]
        exact ⟨hsucc, by simp, hw⟩
      · push_neg at hx
        have hcf : (nc && !(conv.allocOk && conv.getBufferOk && conv.scaleOk)) = false :=
          and_not_eq_false nc (conv.allocOk && conv.getBufferOk && conv.scaleOk) hgc
        have hstep := stepFrame_encode labels dir nc f conv enc s (by omega) hcf
        have hopen := save_ok_fileOpened enc hok
        have hle2 : s.frame_count + 1 ≤ labels.length := by omega
        have hw2 : (s.written ++ (if (decode_and_save_frame enc).fileOpened then
              [pathOf dir (labels.getD s.frame_count "")] else []))
            = (labels.take (s.frame_count + 1)).map (pathOf dir) := by
          rw [take_succ_getD labels s.frame_count hx, List.map_append, ← hw]
          simp [hopen]
        have hrec := ih (LoopState.mk (s.frame_count + 1)
            (s.decoded_frames + (if (decode_and_save_frame enc).ok then 1 else 0))
            (s.success && (decode_and_save_frame enc).ok)
            (s.written ++ (if (decode_and_save_frame enc).fileOpened then
               [pathOf dir (labels.getD s.frame_count "")] else []))
            (s.encoded ++ [if nc then OutFrame.converted f else OutFrame.original f]))
          hrest (by simp [hsucc, hok]) hle2 hw2
        simp only [drainMain, hstep, List.length_cons, if_true]
        rw [show s.frame_count + (rest.length + 1) = s.frame_count + 1 + rest.length from by omega]
        exact hrec

/-- The main-drain invariant lifted over the whole packet read loop. -/
lemma runPackets_good (labels : List String) (dir : String) (nc : Bool) :
    ∀ (packets : List Packet) (s : LoopState),
      packets.all (goodPacket nc) = true →
      s.success = true →
      s.frame_count ≤ labels.length →
      s.written = (labels.take s.frame_count).map (pathOf dir) →
      (runPackets labels dir nc packets s).success = true ∧
      (runPackets labels dir nc packets s).frame_count
        = min (s.frame_count + mainFrames packets) labels.length ∧
      (runPackets labels dir nc packets s).written
        = (labels.take (min (s.frame_count + mainFrames packets) labels.length)).map
            (pathOf dir) := by
  intro packets
  induction packets with
  | nil =>
    intro s _ hsucc hle hw
    simp only [runPackets, List.foldl_nil, mainFrames, List.map_nil, List.sum_nil, Nat.add_zero]
    have hmin : min s.frame_count labels.length = s.frame_count := by omega
    rw [hmin]
    exact ⟨hsucc, rfl, hw⟩
  | cons p rest ih =>
    intro s hgood hsucc hle hw
    rw [List.all_cons, Bool.and_eq_true] at hgood
    obtain ⟨hp, hrest⟩ := hgood
    have hfold : runPackets labels dir nc (p :: rest) s
        = runPackets labels dir nc rest (processPacket labels dir nc s p) := rfl
    cases p with
    | otherStream =>
      rw [hfold]
      have hrec := ih s hrest hsucc hle hw
      simpa [mainFrames, processPacket, packetFrames] using hrec
    | sendFail =>
      rw [hfold]
      have hrec := ih s hrest hsucc hle hw
      simpa [mainFrames, processPacket, packetFrames] using hrec
    | video items =>
      rw [hfold]
      simp only [processPacket]
      have hdrain := drainMain_good labels dir nc items s hp hsucc hle hw
      obtain ⟨hd1, hd2, hd3⟩ := hdrain
      have hle2 : (drainMain labels dir nc items s).frame_count ≤ labels.length := by
        rw [hd2]; omega
      have hrec := ih (drainMain labels dir nc items s) hrest hd1 hle2 (by rw [hd3, hd2])
      obtain ⟨h1, h2, h3⟩ := hrec
      refine ⟨h1, ?_, ?_⟩
      · rw [h2, hd2]
        simp only [mainFrames, List.map_cons, List.sum_cons, packetFrames]
        omega
      · rw [h3, hd2]
        have harith : min (min (s.frame_count + items.length) labels.length
              + mainFrames rest) labels.length
            = min (s.frame_count + mainFrames (Packet.video items :: rest)) labels.length := by
          simp only [mainFrames, List.map_cons, List.sum_cons, packetFrames]
          omega
        rw [harith]

/-- The same invariant for the flush loop. -/
lemma drainFlush_good (labels : List String) (dir : String) :
    ∀ (items : List (Frame × EncodeEnv)) (s : LoopState),
      items.all (fun fe => (decode_and_save_frame fe.2).ok) = true →
      s.success = true →
      s.frame_count ≤ labels.length →
      s.written = (labels.take s.frame_count).map (pathOf dir) →
      (drainFlush labels dir items s).success = true ∧
      (drainFlush labels dir items s).frame_count
        = min (s.frame_count + items.length) labels.length ∧
      (drainFlush labels dir items s).written
        = (labels.take (min (s.frame_count + items.length) labels.length)).map (pathOf dir) := by
  intro items
  induction items with
  | nil =>
    intro s _ hsucc hle hw
    simp only [drainFlush, List.foldl_nil, List.length_nil, Nat.add_zero]
    have hmin : min s.frame_count labels.length = s.frame_count := by omega
    rw [hmin]
    exact ⟨hsucc, rfl, hw⟩
  | cons fe rest ih =>
    intro s hgood hsucc hle hw
    rw [List.all_cons, Bool.and_eq_true] at hgood
    obtain ⟨hok, hrest⟩ := hgood
    have hfold : drainFlush labels dir (fe :: rest) s
        = drainFlush labels dir rest (flushStep labels dir fe.1 fe.2 s) := rfl
    rw [hfold]
    by_cases hx : s.frame_count < labels.length
    · have hopen := save_ok_fileOpened fe.2 hok
      have hstep : flushStep labels dir fe.1 fe.2 s = LoopState.mk (s.frame_count + 1)
          (s.decoded_frames + (if (decode_and_save_frame fe.2).ok then 1 else 0))
          (s.success && (decode_and_save_frame fe.2).ok)
          (s.written ++ (if (decode_and_save_frame fe.2).fileOpened then
             [pathOf dir (labels.getD s.frame_count "")] else []))
          (s.encoded ++ [OutFrame.original fe.1]) := by
        unfold flushStep
        rw [if_pos hx]
      have hle2 : s.frame_count + 1 ≤ labels.length := by omega
      have hw2 : (s.written ++ (if (decode_and_save_frame fe.2).fileOpened then
            [pathOf dir (labels.getD s.frame_count "")] else []))
          = (labels.take (s.frame_count + 1)).map (pathOf dir) := by
        rw [take_succ_getD labels s.frame_count hx, List.map_append, ← hw]
        simp [hopen]
      have hrec := ih (LoopState.mk (s.frame_count + 1)
          (s.decoded_frames + (if (decode_and_save_frame fe.2).ok then 1 else 0))
          (s.success && (decode_and_save_frame fe.2).ok)
          (s.written ++ (if (decode_and_save_frame fe.2).fileOpened then
             [pathOf dir (labels.getD s.frame_count "")] else []))
          (s.encoded ++ [OutFrame.original fe.1]))
        hrest (by simp [hsucc, hok]) hle2 hw2
      rw [hstep]
      simp only [List.length_cons]
      rw [show s.frame_count + (rest.length + 1) = s.frame_count + 1 + rest.length from by omega]
      exact hrec
    · have hstep : flushStep labels dir fe.1 fe.2 s = s := by
        unfold flushStep
        rw [if_neg hx]
      rw [hstep]
      have hrec := ih s hrest hsucc hle hw
      obtain ⟨h1, h2, h3⟩ := hrec
      refine ⟨h1, ?_, ?_⟩
      · rw [h2]
        simp only [List.length_cons]
        omega
      · rw [h3]
        simp only [List.length_cons]
        have harith : min (s.frame_count + rest.length) labels.length
            = min (s.frame_count + (rest.length + 1)) labels.length := by omega
        rw [harith]

/-- C4: for a run with K decodable frames and L labels in which every
normalize-and-encode step succeeds, the pipeline returns `true` and the
files written are exactly the first `min K L` labels, in decode-emission
order, as paths under the output directory; the remaining frames produce
no output and no error. -/
theorem c4_min_files (inp : PipelineInput) (h : GoodInput inp) :
    (decode_video_to_images inp).1 = true ∧
    (decode_video_to_images inp).2.written
      = ((readLabels inp.txtLines).take
          (min (totalFrames inp) (readLabels inp.txtLines).length)).map
          (pathOf inp.output_dir) := by
  obtain ⟨h1, h2, h3, h4, h5, h6, h7, h8, h9, h10, h11, h12, h13, h14⟩ := h
  have hkey : decode_video_to_images inp
      = ((drainFlush (readLabels inp.txtLines) inp.output_dir inp.flushFrames
            (runPackets (readLabels inp.txtLines) inp.output_dir (needsConversion inp.pixFmt)
              inp.packets initState)).success,
         drainFlush (readLabels inp.txtLines) inp.output_dir inp.flushFrames
            (runPackets (readLabels inp.txtLines) inp.output_dir (needsConversion inp.pixFmt)
              inp.packets initState)) := by
    unfold decode_video_to_images
    simp [h1, h2, h3, h4, h5, h6, h7, h8, h9, h10, h11, h12]
  have hrp := runPackets_good (readLabels inp.txtLines) inp.output_dir
      (needsConversion inp.pixFmt) inp.packets initState h13 rfl (Nat.zero_le _) rfl
  obtain ⟨hr1, hr2, hr3⟩ := hrp
  have hfl := drainFlush_good (readLabels inp.txtLines) inp.output_dir inp.flushFrames
      (runPackets (readLabels inp.txtLines) inp.output_dir (needsConversion inp.pixFmt)
        inp.packets initState) h14 hr1 (by rw [hr2]; omega) (by rw [hr3, hr2])
  obtain ⟨hf1, hf2, hf3⟩ := hfl
  rw [hkey]
  refine ⟨hf1, ?_⟩
  rw [hf3, hr2]
  have harith : min (min (initState.frame_count + mainFrames inp.packets)
        (readLabels inp.txtLines).length + inp.flushFrames.length)
        (readLabels inp.txtLines).length
      = min (totalFrames inp) (readLabels inp.txtLines).length := by
    have hz : initState.frame_count = 0 := rfl
    simp only [totalFrames, hz]
    omega
  rw [harith]

/-- C4 witness: the 3-frame/2-label run writes exactly the two labelled
files. -/
theorem c4_min_files_witness :
    (decode_video_to_images c4Input).1 = true ∧
    (decode_video_to_images c4Input).2.written
      = ((readLabels c4Input.txtLines).take
          (min (totalFrames c4Input) (readLabels c4Input.txtLines).length)).map
          (pathOf c4Input.output_dir) :=
  c4_min_files c4Input (by unfold GoodInput; decide)

/-- Folding `&&` over a list starting from `b` is `b && all`. -/
lemma foldl_and_eq_all (f : JobSpec → Bool) (jobs : List JobSpec) (b : Bool) :
    jobs.foldl (fun acc j => acc && f j) b = (b && jobs.all f) := by
  induction jobs generalizing b with
  | nil => simp
  | cons j rest ih => simp [List.foldl_cons, ih, List.all_cons, Bool.and_assoc]

/-- The orchestrator's aggregate flag is the conjunction of job outcomes. -/
lemma mainAllSuccess_eq_all (jobs : List JobSpec) :
    mainAllSuccess jobs = jobs.all (fun j => (runJob j).1) := by
  unfold mainAllSuccess
  rw [foldl_and_eq_all]
  simp

/-- C5: the orchestrator's overall flag equals the logical AND of all
per-job outcomes; a job failing any of the three precondition checks is
marked failed without invoking the pipeline; and the aggregate over a
concatenation is the AND of the two aggregates, so no failure in an
earlier segment stops the later jobs from contributing. -/
theorem c5_orchestrator :
    (∀ jobs : List JobSpec, mainAllSuccess jobs = jobs.all (fun j => (runJob j).1)) ∧
    (∀ j : JobSpec,
      (j.videoExists = false ∨ j.txtExists = false ∨ j.outputDirOk = false) →
      runJob j = (false, false)) ∧
    (∀ jobs1 jobs2 : List JobSpec,
      mainAllSuccess (jobs1 ++ jobs2) = (mainAllSuccess jobs1 && mainAllSuccess jobs2)) := by
  refine ⟨mainAllSuccess_eq_all, ?_, ?_⟩
  · intro j h
    unfold runJob
    rcases h with h | h | h <;> simp [h]
  · intro jobs1 jobs2
    rw [mainAllSuccess_eq_all, mainAllSuccess_eq_all, mainAllSuccess_eq_all, List.all_append]

/-- C5 witness: a job with a missing video file fails without running the
pipeline, and a concrete batch aggregates by conjunction. -/
theorem c5_orchestrator_witness :
    runJob ⟨false, true, true, c2Input⟩ = (false, false) ∧
    mainAllSuccess [⟨false, true, true, c2Input⟩, ⟨true, true, true, c2Input⟩]
      = ([⟨false, true, true, c2Input⟩, ⟨true, true, true, c2Input⟩] : List JobSpec).all
          (fun j => (runJob j).1) :=
  ⟨c5_orchestrator.2.1 ⟨false, true, true, c2Input⟩ (Or.inl rfl),
   c5_orchestrator.1 [⟨false, true, true, c2Input⟩, ⟨true, true, true, c2Input⟩]⟩

/-- With no labels, a hard-error-free main drain leaves the state intact. -/
lemma drainMain_empty_labels (dir : String) (nc : Bool) (items : List DrainItem)
    (h : items.all itemNoHard = true) (s : LoopState) :
    drainMain [] dir nc items s = s := by
  cases items with
  | nil => rfl
  | cons it rest =>
    cases it with
    | hardError => simp [itemNoHard, List.all_cons] at h
    | frame f conv enc =>
      have hstep := stepFrame_exhausted [] dir nc f conv enc s (by simp)
      simp [drainMain, hstep]

/-- With no labels, a hard-error-free packet loop leaves the state intact. -/
lemma runPackets_empty_labels (dir : String) (nc : Bool) (packets : List Packet) :
    ∀ s : LoopState, packets.all packetNoHard = true →
      runPackets [] dir nc packets s = s := by
  induction packets with
  | nil => intro s _; rfl
  | cons p rest ih =>
    intro s h
    rw [List.all_cons, Bool.and_eq_true] at h
    obtain ⟨hp, hrest⟩ := h
    have hfold : runPackets [] dir nc (p :: rest) s
        = runPackets [] dir nc rest (processPacket [] dir nc s p) := rfl
    rw [hfold]
    cases p with
    | otherStream => exact ih s hrest
    | sendFail => exact ih s hrest
    | video items =>
      simp only [processPacket]
      rw [drainMain_empty_labels dir nc items hp s]
      exact ih s hrest

/-- With no labels, the flush loop leaves the state intact. -/
lemma drainFlush_empty_labels (dir : String) (items : List (Frame × EncodeEnv)) :
    ∀ s : LoopState, drainFlush [] dir items s = s := by
  induction items with
  | nil => intro s; rfl
  | cons fe rest ih =>
    intro s
    have hfold : drainFlush [] dir (fe :: rest) s
        = drainFlush [] dir rest (flushStep [] dir fe.1 fe.2 s) := rfl
    rw [hfold]
    have hstep : flushStep [] dir fe.1 fe.2 s = s := by
      unfold flushStep
      rw [if_neg (by simp)]
    rw [hstep]
    exact ih s

/-- C6: with an empty label sequence and no hard decode error, a run whose
setup succeeds writes zero files and still returns `true`. -/
theorem c6_empty_labels (inp : PipelineInput)
    (hsetup : inp.outputDirOk = true ∧ inp.txtExists = true ∧ inp.txtOpenOk = true ∧
      inp.videoExists = true ∧ inp.openInputOk = true ∧ inp.findStreamInfoOk = true ∧
      inp.hasVideoStream = true ∧ inp.allocCtxOk = true ∧ inp.paramsToCtxOk = true ∧
      inp.openDecoderOk = true ∧ inp.allocFramePacketOk = true ∧
      (needsConversion inp.pixFmt && !inp.swsCreateOk) = false)
    (hempty : readLabels inp.txtLines = [])
    (hnoerr : inp.packets.all packetNoHard = true) :
    (decode_video_to_images inp).1 = true ∧
    (decode_video_to_images inp).2.written = [] := by
  obtain ⟨h1, h2, h3, h4, h5, h6, h7, h8, h9, h10, h11, h12⟩ := hsetup
  have hkey : decode_video_to_images inp
      = ((drainFlush (readLabels inp.txtLines) inp.output_dir inp.flushFrames
            (runPackets (readLabels inp.txtLines) inp.output_dir (needsConversion inp.pixFmt)
              inp.packets initState)).success,
         drainFlush (readLabels inp.txtLines) inp.output_dir inp.flushFrames
            (runPackets (readLabels inp.txtLines) inp.output_dir (needsConversion inp.pixFmt)
              inp.packets initState)) := by
    unfold decode_video_to_images
    simp [h1, h2, h3, h4, h5, h6, h7, h8, h9, h10, h11, h12]
  rw [hkey, hempty]
  rw [runPackets_empty_labels inp.output_dir (needsConversion inp.pixFmt) inp.packets
    initState hnoerr]
  rw [drainFlush_empty_labels inp.output_dir inp.flushFrames initState]
  exact ⟨rfl, rfl⟩

/-- C6 witness: the concrete zero-label run returns success and writes
nothing. -/
theorem c6_empty_labels_witness :
    (decode_video_to_images c6Input).1 = true ∧
    (decode_video_to_images c6Input).2.written = [] :=
  c6_empty_labels c6Input (by decide) (by decide) (by decide)
